import Mathlib

/-!
# Verification of the adview column decoding engine

Shallow embedding of `src/lib.rs` (struct `DataReader` with `new` and
`read_chunk`) and of `export_obs_to_csv` from `src/main.rs`, over an explicit
model of the hierarchical container (HDF5 groups, datasets, attributes).

Rust `Result` values are modelled as `Except RErr`; a Rust panic (index out of
bounds, slice range out of range) is modelled as a distinguished `RErr.panicked`
outcome, since a panic aborts the call without returning any value.
-/

set_option autoImplicit false

/-- Outcome of a fallible Rust operation: either a structured `anyhow` error
(one constructor per `anyhow!` site in the source, plus `containerErr` for
errors bubbled up from the hdf5 collaborator) or a Rust panic. -/
inductive RErr where
  | panicked (site : String)
  | catDataNotFound
  | unsupportedEncoding (tag : String)
  | containerErr (msg : String)

/-- `Result<α>` from the source. -/
abbrev RResult (α : Type) := Except RErr α

/-- `true` iff the result is `Ok`. -/
def rIsOk {α : Type} : RResult α → Bool
  | .ok _ => true
  | .error _ => false

/-- `true` iff the result is the `"Categorical data not found"` error from
`DataReader::read_chunk`. -/
def isCatNotFoundErr {α : Type} : RResult α → Bool
  | .error .catDataNotFound => true
  | _ => false

/-- Typed payload of an HDF5 dataset: variable-length strings, `i64`, or
`u32` elements (`u32` values are non-negative, modelled as `Nat`). -/
inductive DsData where
  | strs (xs : List String)
  | i64s (xs : List Int)
  | u32s (xs : List Nat)

/-- An HDF5 dataset: string attributes plus a typed 1-d payload. -/
structure HDataset where
  attrs : List (String × String)
  data : DsData

/-- An HDF5 node: a leaf dataset or a group with attributes and ordered,
named children. -/
inductive HNode where
  | ds (d : HDataset)
  | grp (attrs : List (String × String)) (children : List (String × HNode))

/-- Look up an attribute by name. -/
def lookupAttr (attrs : List (String × String)) (key : String) : Option String :=
  (attrs.find? (fun p => p.1 == key)).map (fun p => p.2)

/-- Look up a child of a group by name. -/
def findChild (children : List (String × HNode)) (name : String) : Option HNode :=
  (children.find? (fun p => p.1 == name)).map (fun p => p.2)

/-- `group.dataset(name)`: open a child as a leaf dataset. -/
def HNode.dataset : HNode → String → RResult HDataset
  | .ds _, _ => .error (.containerErr "not a group")
  | .grp _ ch, name =>
    match findChild ch name with
    | some (.ds d) => .ok d
    | some (.grp _ _) => .error (.containerErr "not a dataset")
    | none => .error (.containerErr "dataset not found")

/-- `group.group(name)`: open a child as a sub-group. -/
def HNode.getGroup : HNode → String → RResult HNode
  | .ds _, _ => .error (.containerErr "not a group")
  | .grp _ ch, name =>
    match findChild ch name with
    | some (.grp a c) => .ok (.grp a c)
    | some (.ds _) => .error (.containerErr "not a group")
    | none => .error (.containerErr "group not found")

/-- `group.member_names()`: the ordered child names of a group. -/
def HNode.memberNames : HNode → RResult (List String)
  | .ds _ => .error (.containerErr "not a group")
  | .grp _ ch => .ok (ch.map (fun p => p.1))

/-- `node.attr(key)?.read_scalar::<VarLenUnicode>()?` on a dataset or group. -/
def HNode.attrStr : HNode → String → RResult String
  | .ds d, key =>
    match lookupAttr d.attrs key with
    | some v => .ok v
    | none => .error (.containerErr "attribute missing")
  | .grp a _, key =>
    match lookupAttr a key with
    | some v => .ok v
    | none => .error (.containerErr "attribute missing")

/-- `dataset.shape()[0]` of a 1-d dataset: its element count. -/
def HDataset.shape0 (d : HDataset) : Nat :=
  match d.data with
  | .strs xs => xs.length
  | .i64s xs => xs.length
  | .u32s xs => xs.length

/-- `dataset.attr(key)?.read_scalar::<VarLenUnicode>()?`. -/
def HDataset.attr (d : HDataset) (key : String) : RResult String :=
  match lookupAttr d.attrs key with
  | some v => .ok v
  | none => .error (.containerErr "attribute missing")

/-- The contiguous sub-list `l[s..e)`. -/
def sliceList {α : Type} (l : List α) (s e : Nat) : List α :=
  (l.drop s).take (e - s)

/-- `dataset.read_slice_1d::<VarLenUnicode,_>(s..e)`: fails unless the dataset
holds strings and the selection is a valid in-bounds range. -/
def HDataset.readSlice1dStrs (d : HDataset) (s e : Nat) : RResult (List String) :=
  match d.data with
  | .strs xs =>
    if s ≤ e ∧ e ≤ xs.length then .ok (sliceList xs s e)
    else .error (.containerErr "selection out of bounds")
  | _ => .error (.containerErr "type mismatch")

/-- `dataset.read_slice_1d::<i64,_>(s..e)`. -/
def HDataset.readSlice1dI64 (d : HDataset) (s e : Nat) : RResult (List Int) :=
  match d.data with
  | .i64s xs =>
    if s ≤ e ∧ e ≤ xs.length then .ok (sliceList xs s e)
    else .error (.containerErr "selection out of bounds")
  | _ => .error (.containerErr "type mismatch")

/-- `dataset.read_1d::<VarLenUnicode>()`. -/
def HDataset.read1dStrs (d : HDataset) : RResult (List String) :=
  match d.data with
  | .strs xs => .ok xs
  | _ => .error (.containerErr "type mismatch")

/-- `dataset.read_1d::<u32>()`. -/
def HDataset.read1dU32 (d : HDataset) : RResult (List Nat) :=
  match d.data with
  | .u32s xs => .ok xs
  | _ => .error (.containerErr "type mismatch")

/-- `dataset.read_1d::<i64>()`. -/
def HDataset.read1dI64 (d : HDataset) : RResult (List Int) :=
  match d.data with
  | .i64s xs => .ok xs
  | _ => .error (.containerErr "type mismatch")

/-- The struct `DataReader` from `src/lib.rs`. -/
structure DataReader where
  headers : List String
  group : HNode
  total_rows : Nat
  encoding_types : List String
  categorical_data : List (Option (List String × List Nat))

/-- One iteration of the probe in `DataReader::new` (lines 26-44): try the
field as a leaf dataset, falling back to a sub-group; read its
`encoding-type` attribute; for the first field (`i = 0`) record the row count
(`shape()[0]`, or the `codes` dataset's `shape()[0]` for a group-backed
field). Returns the updated row count and the raw encoding tag. -/
def probeField (g : HNode) (i : Nat) (name : String) (tr : Nat) :
    RResult (Nat × String) :=
  match g.dataset name with
  | .ok d =>
    match d.attr "encoding-type" with
    | .ok et => .ok (if i = 0 then d.shape0 else tr, et)
    | .error e => .error e
  | .error _ =>
    match g.getGroup name with
    | .ok sub =>
      match (if i = 0 then (sub.dataset "codes").map HDataset.shape0 else .ok tr) with
      | .ok tr' =>
        match sub.attrStr "encoding-type" with
        | .ok et => .ok (tr', et)
        | .error e => .error e
      | .error e => .error e
    | .error e => .error e

/-- Lines 49-57 of `DataReader::new`: for a `"categorical"` field, open the
sub-group and fully read `categories` (strings) and `codes` (`u32`). -/
def loadCategorical (g : HNode) (name : String) :
    RResult (List String × List Nat) :=
  match g.getGroup name with
  | .ok sub =>
    match sub.dataset "categories" with
    | .ok dcat =>
      match dcat.read1dStrs with
      | .ok cats =>
        match sub.dataset "codes" with
        | .ok dcode =>
          match dcode.read1dU32 with
          | .ok codes => .ok (cats, codes)
          | .error e => .error e
        | .error e => .error e
      | .error e => .error e
    | .error e => .error e
  | .error e => .error e

/-- The `for (i, name) in headers.iter().enumerate()` loop of
`DataReader::new`, carrying the running row count and producing the final row
count and the `encoding_types` / `categorical_data` vectors. -/
def newLoop (g : HNode) :
    Nat → List String → Nat →
    RResult (Nat × List String × List (Option (List String × List Nat)))
  | _, [], tr => .ok (tr, [], [])
  | i, name :: rest, tr =>
    match probeField g i name tr with
    | .error e => .error e
    | .ok (tr', et) =>
      match (if et = "categorical" then (loadCategorical g name).map some else .ok none) with
      | .error e => .error e
      | .ok cat =>
        match newLoop g (i + 1) rest tr' with
        | .error e => .error e
        | .ok (trF, ets, cs) => .ok (trF, et :: ets, cat :: cs)

/-- `DataReader::new(file, group_name)` from `src/lib.rs` lines 17-70. -/
def DataReader.new (file : HNode) (group_name : String) : RResult DataReader :=
  match file.getGroup group_name with
  | .error e => .error e
  | .ok g =>
    match g.memberNames with
    | .error e => .error e
    | .ok headers =>
      match newLoop g 0 headers 0 with
      | .error e => .error e
      | .ok (tr, ets, cs) => .ok ⟨headers, g, tr, ets, cs⟩

/-- The per-field body of the `read_chunk` loop (lines 78-109): decode the
range `[start, e)` of one field according to its recorded encoding tag.
`categories[code as usize]` on an out-of-range code and `codes[start..end]` on
an invalid range are Rust panics, modelled as `RErr.panicked`. -/
def decodeField (r : DataReader) (i : Nat) (name etype : String)
    (start e : Nat) : RResult (List String) :=
  if etype = "string-array" then
    match r.group.dataset name with
    | .ok d => d.readSlice1dStrs start e
    | .error er => .error er
  else if etype = "categorical" then
    match r.categorical_data.get? i with
    | none => .error (.panicked "index out of bounds: categorical_data")
    | some none => .error .catDataNotFound
    | some (some (categories, codes)) =>
      if start ≤ e ∧ e ≤ codes.length then
        if (sliceList codes start e).all (fun c => decide (c < categories.length)) then
          .ok ((sliceList codes start e).map (fun c => categories.getD c ""))
        else .error (.panicked "index out of bounds: categories")
      else .error (.panicked "slice index out of range: codes")
  else if etype = "array" then
    match r.group.dataset name with
    | .ok d =>
      match d.readSlice1dI64 start e with
      | .ok xs => .ok (xs.map (fun n => toString n))
      | .error er => .error er
    | .error er => .error er
  else .error (.unsupportedEncoding etype)

/-- The `for (i, (name, encoding_type)) in ...zip(...).enumerate()` loop of
`read_chunk`, pushing one decoded column per field and aborting on the first
failure. -/
def readFieldsLoop (r : DataReader) (start e : Nat) :
    Nat → List (String × String) → RResult (List (List String))
  | _, [] => .ok []
  | i, (name, et) :: rest =>
    match decodeField r i name et start e with
    | .error er => .error er
    | .ok col =>
      match readFieldsLoop r start e (i + 1) rest with
      | .error er => .error er
      | .ok cols => .ok (col :: cols)

/-- `DataReader::read_chunk(start, chunk_size)` from `src/lib.rs` lines
72-114: `end = (start + chunk_size).min(total_rows)`, then one decoded column
per `(header, encoding_type)` pair, in catalog order. -/
def DataReader.read_chunk (r : DataReader) (start chunk_size : Nat) :
    RResult (List (List String)) :=
  readFieldsLoop r start (min (start + chunk_size) r.total_rows) 0
    (r.headers.zip r.encoding_types)

/-- The field list `read_chunk` iterates over. -/
def zipL (r : DataReader) : List (String × String) :=
  r.headers.zip r.encoding_types

/-- The probe used by `show_fields` / `export_obs_to_csv` in `src/main.rs`
(and the attribute part of the probe in `DataReader::new`): the raw
`encoding-type` tag of a field, read from the leaf dataset or, failing that,
from the sub-group. -/
def probeEncodingType (g : HNode) (name : String) : RResult String :=
  match g.dataset name with
  | .ok d => d.attr "encoding-type"
  | .error _ =>
    match g.getGroup name with
    | .ok sub => sub.attrStr "encoding-type"
    | .error e => .error e

/-- The `i = 0` row-count computation of `DataReader::new`: `shape()[0]` of
the field's leaf dataset or, when the field only opens as a sub-group,
`shape()[0]` of that sub-group's `codes` dataset. -/
def firstFieldLen (g : HNode) (name : String) : RResult Nat :=
  match g.dataset name with
  | .ok d => .ok d.shape0
  | .error _ =>
    match g.getGroup name with
    | .ok sub =>
      match sub.dataset "codes" with
      | .ok c => .ok c.shape0
      | .error e => .error e
    | .error e => .error e

/-- Concatenation of two per-field column sets, field by field. -/
def concatCols (a b : List (List String)) : List (List String) :=
  List.zipWith (fun x y => x ++ y) a b

/-- The per-field result of concatenating zero chunks: one empty column per
field of the catalog. -/
def emptyCols (r : DataReader) : List (List String) :=
  List.replicate (zipL r).length ([] : List String)

/-- The chunked iteration pattern of `show_less` (`src/lib.rs` lines
153-162): starting at `start`, repeatedly `read_chunk start count` and
advance by `count` while `start < total_rows`, concatenating the decoded
columns per field. `fuel` bounds the number of iterations; with
`total_rows ≤ start + count * fuel` it is never exhausted. -/
def readChunks (r : DataReader) (count : Nat) :
    Nat → Nat → RResult (List (List String))
  | _, 0 => .ok (emptyCols r)
  | start, fuel + 1 =>
    if start < r.total_rows then
      match r.read_chunk start count with
      | .error e => .error e
      | .ok c =>
        match readChunks r count (start + count) fuel with
        | .error e => .error e
        | .ok rest => .ok (concatCols c rest)
    else .ok (emptyCols r)

/-- Two successive `read_chunk` calls with the same arguments against the
same `DataReader` (which `read_chunk` borrows immutably), together with the
reader state after both calls. -/
def read_chunk_twice (r : DataReader) (s c : Nat) :
    RResult (List (List String)) × RResult (List (List String)) × DataReader :=
  (r.read_chunk s c, r.read_chunk s c, r)

/-- Decidable check that field `i` (named `nm`, tag `et`) is backed by data
of the declared encoding covering all `total_rows` rows: the well-formedness
a correctly written container provides. -/
def fieldOKb (r : DataReader) (i : Nat) (nm et : String) : Bool :=
  if et = "string-array" then
    match r.group.dataset nm with
    | .ok d =>
      match d.data with
      | .strs xs => decide (r.total_rows ≤ xs.length)
      | _ => false
    | .error _ => false
  else if et = "categorical" then
    match r.categorical_data.get? i with
    | some (some (_, codes)) => decide (r.total_rows ≤ codes.length)
    | _ => false
  else if et = "array" then
    match r.group.dataset nm with
    | .ok d =>
      match d.data with
      | .i64s xs => decide (r.total_rows ≤ xs.length)
      | _ => false
    | .error _ => false
  else false

/-- `fieldOKb` over a field list, carrying the running field index. -/
def allFieldsOKb (r : DataReader) : Nat → List (String × String) → Bool
  | _, [] => true
  | i, (nm, et) :: rest => fieldOKb r i nm et && allFieldsOKb r (i + 1) rest

/-- The per-field whole-column read of `export_obs_to_csv` (`src/main.rs`
lines 195-230): full (non-sliced) reads; the out-of-range categorical code
lookup `categories[code as usize]` is a Rust panic. -/
def exportDecode (g : HNode) (name et : String) : RResult (List String) :=
  if et = "string-array" then
    match g.dataset name with
    | .ok d => d.read1dStrs
    | .error e => .error e
  else if et = "categorical" then
    match loadCategorical g name with
    | .ok (cats, codes) =>
      if codes.all (fun c => decide (c < cats.length)) then
        .ok (codes.map (fun c => cats.getD c ""))
      else .error (.panicked "index out of bounds: categories")
    | .error e => .error e
  else if et = "array" then
    match g.dataset name with
    | .ok d =>
      match d.read1dI64 with
      | .ok xs => .ok (xs.map (fun n => toString n))
      | .error e => .error e
    | .error e => .error e
  else .error (.unsupportedEncoding et)

/-- The `for name in &member_names` loop of `export_obs_to_csv` building
`all_data`: probe each field's encoding tag, decode its whole column, abort
on the first failure. -/
def exportLoop (g : HNode) : List String → RResult (List (List String))
  | [] => .ok []
  | name :: rest =>
    match probeEncodingType g name with
    | .error e => .error e
    | .ok et =>
      match exportDecode g name et with
      | .error e => .error e
      | .ok data =>
        match exportLoop g rest with
        | .error e => .error e
        | .ok ds => .ok (data :: ds)

/-- One row of the transposition loop:
`all_data.iter().map(|col| col[row_idx].clone())`; a column shorter than
`row_idx + 1` makes `col[row_idx]` a Rust panic. -/
def buildRow (allData : List (List String)) (idx : Nat) : RResult (List String) :=
  match allData with
  | [] => .ok []
  | col :: rest =>
    match col.get? idx with
    | some v =>
      match buildRow rest idx with
      | .ok row => .ok (v :: row)
      | .error e => .error e
    | none => .error (.panicked "index out of bounds: column")

/-- The `for row_idx in 0..all_data[0].len()` write loop, accumulating the
CSV records written so far; `k` is the number of remaining iterations. -/
def rowsLoop (allData : List (List String)) :
    Nat → Nat → List (List String) → List (List String) × Option RErr
  | 0, _, w => (w, none)
  | k + 1, idx, w =>
    match buildRow allData idx with
    | .ok row => rowsLoop allData k (idx + 1) (w ++ [row])
    | .error e => (w, some e)

/-- `export_obs_to_csv(file, output)` from `src/main.rs` lines 162-242,
with the CSV writer modelled as the list of records written so far. The
result is the written records paired with `none` on success or the
error / panic that aborted the run. -/
def export_obs_to_csv (file : HNode) : List (List String) × Option RErr :=
  match file.getGroup "obs" with
  | .error e => ([], some e)
  | .ok g =>
    match g.memberNames with
    | .error e => ([], some e)
    | .ok members =>
      let w0 := [members]
      match exportLoop g members with
      | .error e => (w0, some e)
      | .ok allData =>
        match allData.get? 0 with
        | none => (w0, some (.panicked "index out of bounds: all_data"))
        | some c0 => rowsLoop allData c0.length 0 w0

/-- `true` iff the error is the modelled panic at the `all_data[0]`
indexing of `export_obs_to_csv`. -/
def allDataPanicErr (e : RErr) : Bool :=
  match e with
  | .panicked s => s == "index out of bounds: all_data"
  | _ => false

/-- `allDataPanicErr` on an optional final error. -/
def isAllDataPanic : Option RErr → Bool
  | some e => allDataPanicErr e
  | none => false

/-- A leaf string dataset with an `encoding-type` attribute. -/
def strDs (et : String) (xs : List String) : HNode :=
  .ds ⟨[("encoding-type", et)], .strs xs⟩

/-- A leaf `i64` dataset tagged `"array"`. -/
def intDs (xs : List Int) : HNode :=
  .ds ⟨[("encoding-type", "array")], .i64s xs⟩

/-- A categorical field: a sub-group holding `categories` and `codes`. -/
def catGroup (cats : List String) (codes : List Nat) : HNode :=
  .grp [("encoding-type", "categorical")]
    [("categories", .ds ⟨[], .strs cats⟩), ("codes", .ds ⟨[], .u32s codes⟩)]

/-- A file whose `obs` group has the given fields. -/
def obsFile (children : List (String × HNode)) : HNode :=
  .grp [] [("obs", .grp [] children)]

/-- C1 counterexample container: categories `["x","y"]`, a code `5`. -/
def exC1file : HNode := obsFile [("c", catGroup ["x", "y"] [5])]

/-- The catalog `DataReader::new` builds over `exC1file`. -/
def exC1reader : DataReader :=
  ⟨["c"], .grp [] [("c", catGroup ["x", "y"] [5])], 1, ["categorical"],
    [some (["x", "y"], [5])]⟩

/-- C3 counterexample container: one categorical field over 2 rows. -/
def exC3file : HNode := obsFile [("c", catGroup ["x"] [0, 0])]

/-- The catalog `DataReader::new` builds over `exC3file`. -/
def exC3reader : DataReader :=
  ⟨["c"], .grp [] [("c", catGroup ["x"] [0, 0])], 2, ["categorical"],
    [some (["x"], [0, 0])]⟩

/-- C5 counterexample container: a zero-row table whose only field carries an
unrecognized encoding tag. -/
def exC5file : HNode := obsFile [("m", strDs "mystery-type" [])]

/-- The catalog `DataReader::new` builds over `exC5file`. -/
def exC5reader : DataReader :=
  ⟨["m"], .grp [] [("m", strDs "mystery-type" [])], 0, ["mystery-type"], [none]⟩

/-- C8: repeated `read_chunk` calls over the same `[start, start+count)` range
on the same catalog return identical column sets (for every field, StringArray
and IntArray included), and leave the catalog — headers, encoding types,
cached categorical data, row count, container handle — unchanged:
`read_chunk` takes `&self` and the embedding is a pure function of the
catalog state, with no hidden mutable cursor. -/
theorem C8_read_chunk_idempotent_and_pure (r : DataReader) (s c : Nat) :
    (read_chunk_twice r s c).1 = (read_chunk_twice r s c).2.1 ∧
      (read_chunk_twice r s c).2.2 = r :=
  ⟨rfl, rfl⟩

/-- C1 counterexample: on categories `["x","y"]` with a code `5`, the catalog
builds fine, but `read_chunk` over the offending range aborts with the Rust
index-out-of-bounds panic from `categories[code as usize]` — it does not
return a structured `OutOfRangeCategory` error value (no such error exists in
the code): the failure is a panic, as witnessed by the exact result below. -/
theorem C1_counterexample_panic_not_error :
    DataReader.new exC1file "obs" = .ok exC1reader ∧
      exC1reader.read_chunk 0 1 =
        .error (.panicked "index out of bounds: categories") :=
  ⟨rfl, rfl⟩

/-- C3 counterexample: on a 2-row categorical table, `read_chunk` with
`start = 3 > rowCount` does not return empty columns — the slice
`codes[start..end]` with `start > end` is a Rust panic. -/
theorem C3_counterexample_start_beyond_rows_panics :
    DataReader.new exC3file "obs" = .ok exC3reader ∧
      exC3reader.read_chunk 3 1 =
        .error (.panicked "slice index out of range: codes") :=
  ⟨rfl, rfl⟩

/-- C5 counterexample: on a zero-row table with a `"mystery-type"` field, the
chunked iteration issues no `read_chunk` at all (so every issued chunk read
trivially succeeds, and the per-field concatenation is one empty column),
while the whole-table read `read_chunk 0 rowCount` fails with the lazily
raised `UnsupportedEncoding` error — so the concatenation does not reproduce
the whole-table read. -/
theorem C5_counterexample_zero_rows :
    DataReader.new exC5file "obs" = .ok exC5reader ∧
      readChunks exC5reader 1 0 3 = .ok [[]] ∧
      exC5reader.read_chunk 0 0 = .error (.unsupportedEncoding "mystery-type") :=
  ⟨rfl, rfl, rfl⟩

/-- `decodeField` at the `"string-array"` tag, unfolded. -/
theorem decodeField_strTag (r : DataReader) (i : Nat) (nm : String) (s e : Nat) :
    decodeField r i nm "string-array" s e =
      match r.group.dataset nm with
      | .ok d => d.readSlice1dStrs s e
      | .error er => .error er := rfl

/-- `decodeField` at the `"categorical"` tag, unfolded. -/
theorem decodeField_catTag (r : DataReader) (i : Nat) (nm : String) (s e : Nat) :
    decodeField r i nm "categorical" s e =
      match r.categorical_data.get? i with
      | none => .error (.panicked "index out of bounds: categorical_data")
      | some none => .error .catDataNotFound
      | some (some (categories, codes)) =>
        if s ≤ e ∧ e ≤ codes.length then
          if (sliceList codes s e).all (fun c => decide (c < categories.length)) then
            .ok ((sliceList codes s e).map (fun c => categories.getD c ""))
          else .error (.panicked "index out of bounds: categories")
        else .error (.panicked "slice index out of range: codes") := rfl

/-- `decodeField` at the `"array"` tag, unfolded. -/
theorem decodeField_arrTag (r : DataReader) (i : Nat) (nm : String) (s e : Nat) :
    decodeField r i nm "array" s e =
      match r.group.dataset nm with
      | .ok d =>
        match d.readSlice1dI64 s e with
        | .ok xs => .ok (xs.map (fun n => toString n))
        | .error er => .error er
      | .error er => .error er := rfl

/-- `decodeField` at any unrecognized tag: the `UnsupportedEncoding` error,
naming the tag. -/
theorem decodeField_otherTag (r : DataReader) (i : Nat) (nm et : String)
    (s e : Nat) (h1 : et ≠ "string-array") (h2 : et ≠ "categorical")
    (h3 : et ≠ "array") :
    decodeField r i nm et s e = .error (.unsupportedEncoding et) := by
  unfold decodeField
  rw [if_neg h1, if_neg h2, if_neg h3]

/-- Length of an in-bounds slice. -/
theorem sliceList_length {α : Type} (l : List α) (s e : Nat) (h1 : s ≤ e)
    (h2 : e ≤ l.length) : (sliceList l s e).length = e - s := by
  simp only [sliceList, List.length_take, List.length_drop]
  omega

/-- A successful per-field decode over `[s, e)` yields exactly `e - s`
values, whatever the encoding. -/
theorem decodeField_length (r : DataReader) (i : Nat) (nm et : String)
    (s e : Nat) (col : List String)
    (h : decodeField r i nm et s e = .ok col) : col.length = e - s := by
  unfold decodeField at h
  split at h
  · split at h
    · rename_i d hds
      unfold HDataset.readSlice1dStrs at h
      split at h
      · rename_i xs hxs
        split at h
        · rename_i hb
          injection h with h
          subst h
          exact sliceList_length xs s e hb.1 hb.2
        · cases h
      · cases h
    · cases h
  · split at h
    · split at h
      · cases h
      · cases h
      · rename_i cats codes hcd
        split at h
        · rename_i hb
          split at h
          · injection h with h
            subst h
            rw [List.length_map]
            exact sliceList_length codes s e hb.1 hb.2
          · cases h
        · cases h
    · split at h
      · split at h
        · rename_i d hds
          split at h
          · rename_i xs hxs
            injection h with h
            subst h
            rw [List.length_map]
            unfold HDataset.readSlice1dI64 at hxs
            split at hxs
            · rename_i ys hys
              split at hxs
              · rename_i hb
                injection hxs with hxs
                subst hxs
                exact sliceList_length ys s e hb.1 hb.2
              · cases hxs
            · cases hxs
          · cases h
        · cases h
      · cases h

/-- Indexing into a zip is indexing into both lists. -/
theorem zip_get?_iff {α β : Type} :
    ∀ (l1 : List α) (l2 : List β) (j : Nat) (a : α) (b : β),
      (l1.zip l2).get? j = some (a, b) ↔
        l1.get? j = some a ∧ l2.get? j = some b := by
  intro l1
  induction l1 with
  | nil => intro l2 j a b; simp
  | cons x xs ih =>
    intro l2 j a b
    cases l2 with
    | nil => simp
    | cons y ys =>
      cases j with
      | zero => simp [List.zip_cons_cons, And.comm, eq_comm]
      | succ j' => simpa [List.zip_cons_cons] using ih ys j' a b

/-- Characterization of a successful `readFieldsLoop`: one column per field,
and the `j`-th column is the successful decode of the `j`-th field with
running index `i + j`. -/
theorem readFieldsLoop_ok (r : DataReader) (s e : Nat) :
    ∀ (L : List (String × String)) (i : Nat) (cols : List (List String)),
      readFieldsLoop r s e i L = .ok cols →
      cols.length = L.length ∧
      ∀ j nm et, L.get? j = some (nm, et) →
        ∃ col, cols.get? j = some col ∧
          decodeField r (i + j) nm et s e = .ok col := by
  intro L
  induction L with
  | nil =>
    intro i cols h
    unfold readFieldsLoop at h
    injection h with h
    subst h
    exact ⟨rfl, by intro j nm et hj; simp at hj⟩
  | cons p rest ih =>
    intro i cols h
    obtain ⟨nm0, et0⟩ := p
    unfold readFieldsLoop at h
    split at h
    · cases h
    · rename_i col hcol
      split at h
      · cases h
      · rename_i cols' hcols
        injection h with h
        subst h
        obtain ⟨hlen, hpt⟩ := ih (i + 1) cols' hcols
        refine ⟨by simp [hlen], ?_⟩
        intro j nm et hj
        cases j with
        | zero =>
          simp only [List.get?_cons_zero, Option.some.injEq, Prod.mk.injEq] at hj
          obtain ⟨h1, h2⟩ := hj
          subst h1; subst h2
          exact ⟨col, rfl, by simpa using hcol⟩
        | succ j' =>
          simp only [List.get?_cons_succ] at hj ⊢
          obtain ⟨col', hc, hdq⟩ := hpt j' nm et hj
          refine ⟨col', hc, ?_⟩
          have hadd : i + 1 + j' = i + (j' + 1) := by omega
          rw [← hadd]
          exact hdq

/-- C4: for `0 <= start <= rowCount`, a successful
`read_chunk start count` returns exactly one decoded column per field of the
catalog (in catalog field order: the `j`-th column is the decode of the
`j`-th header with its encoding tag), and every returned column has length
`min count (rowCount - start)`. The length hypothesis `hlen` holds for every
catalog built by `DataReader::new` (see the C9 invariant). -/
theorem C4_one_column_per_field (r : DataReader) (start n : Nat)
    (cols : List (List String))
    (hlen : r.headers.length = r.encoding_types.length)
    (hs : start ≤ r.total_rows)
    (h : r.read_chunk start n = .ok cols) :
    cols.length = r.headers.length ∧
    (∀ col ∈ cols, col.length = min n (r.total_rows - start)) ∧
    (∀ j nm et, r.headers.get? j = some nm →
      r.encoding_types.get? j = some et →
      ∃ col, cols.get? j = some col ∧
        decodeField r j nm et start (min (start + n) r.total_rows) = .ok col) := by
  have h' : readFieldsLoop r start (min (start + n) r.total_rows) 0
      (r.headers.zip r.encoding_types) = .ok cols := h
  obtain ⟨hl, hpt⟩ :=
    readFieldsLoop_ok r start (min (start + n) r.total_rows)
      (r.headers.zip r.encoding_types) 0 cols h'
  have hzlen : (r.headers.zip r.encoding_types).length = r.headers.length := by
    rw [List.length_zip, hlen, Nat.min_self]
  refine ⟨by rw [hl, hzlen], ?_, ?_⟩
  · intro col hcol
    obtain ⟨j, hj⟩ := List.mem_iff_get?.mp hcol
    have hjlt : j < (r.headers.zip r.encoding_types).length := by
      by_contra hge
      rw [← hl] at hge
      have hnone := List.get?_eq_none.mpr (by omega : cols.length ≤ j)
      rw [hnone] at hj
      cases hj
    obtain ⟨⟨nm, et⟩, hz⟩ :
        ∃ p, (r.headers.zip r.encoding_types).get? j = some p := by
      cases hq : (r.headers.zip r.encoding_types).get? j with
      | none => exact absurd (List.get?_eq_none.mp hq) (by omega)
      | some p => exact ⟨p, rfl⟩
    obtain ⟨col', hc', hd⟩ := hpt j nm et hz
    rw [hj] at hc'
    injection hc' with hc'
    subst hc'
    have hcl := decodeField_length r (0 + j) nm et start
      (min (start + n) r.total_rows) col hd
    rw [hcl]
    omega
  · intro j nm et hh he
    have hz := (zip_get?_iff r.headers r.encoding_types j nm et).mpr ⟨hh, he⟩
    obtain ⟨col, hc, hd⟩ := hpt j nm et hz
    refine ⟨col, hc, ?_⟩
    simpa using hd

/-- C4 witness container: a 3-row table with a string-array, an int-array and
a categorical field. -/
def exC4file : HNode :=
  obsFile [("s", strDs "string-array" ["a", "b", "c"]),
           ("i", intDs [1, 2, 3]),
           ("c", catGroup ["p", "q"] [0, 1, 1])]

/-- The catalog `DataReader::new` builds over `exC4file`. -/
def exC4reader : DataReader :=
  ⟨["s", "i", "c"],
   .grp [] [("s", strDs "string-array" ["a", "b", "c"]),
            ("i", intDs [1, 2, 3]),
            ("c", catGroup ["p", "q"] [0, 1, 1])],
   3, ["string-array", "array", "categorical"],
   [none, none, some (["p", "q"], [0, 1, 1])]⟩

/-- Witness for C4 at a concrete catalog and chunk: the read succeeds with
one column per field. -/
theorem C4_witness :
    DataReader.new exC4file "obs" = .ok exC4reader ∧
      exC4reader.read_chunk 1 5 = .ok [["b", "c"], ["2", "3"], ["q", "q"]] ∧
      ([["b", "c"], ["2", "3"], ["q", "q"]] : List (List String)).length =
        exC4reader.headers.length :=
  ⟨rfl, rfl,
    (C4_one_column_per_field exC4reader 1 5 [["b", "c"], ["2", "3"], ["q", "q"]]
      rfl (by decide) rfl).1⟩

/-- C1 (amended): whenever some code in `codes[start..end)` is out of the
category table's bounds (and the range itself is valid), `read_chunk` over
that range never returns a value — in the code this is the
`categories[code as usize]` index-out-of-bounds panic, not a structured
`OutOfRangeCategory` error — so no partial output is ever produced. -/
theorem C1_amended_out_of_range_code_aborts (r : DataReader)
    (i start n : Nat) (nm : String) (cats : List String) (codes : List Nat)
    (hz : (r.headers.zip r.encoding_types).get? i = some (nm, "categorical"))
    (hc : r.categorical_data.get? i = some (some (cats, codes)))
    (hb1 : start ≤ min (start + n) r.total_rows)
    (hb2 : min (start + n) r.total_rows ≤ codes.length)
    (hbad : (sliceList codes start (min (start + n) r.total_rows)).all
      (fun c => decide (c < cats.length)) = false) :
    rIsOk (r.read_chunk start n) = false := by
  cases hrc : r.read_chunk start n with
  | error e => rfl
  | ok cols =>
    exfalso
    have h' : readFieldsLoop r start (min (start + n) r.total_rows) 0
        (r.headers.zip r.encoding_types) = .ok cols := hrc
    obtain ⟨_, hpt⟩ :=
      readFieldsLoop_ok r start (min (start + n) r.total_rows)
        (r.headers.zip r.encoding_types) 0 cols h'
    obtain ⟨col, _, hd⟩ := hpt i nm "categorical" hz
    rw [Nat.zero_add, decodeField_catTag] at hd
    simp only [hc] at hd
    rw [if_pos (And.intro hb1 hb2), hbad] at hd
    simp at hd

/-- C1 witness container: categories `["x","y"]`, codes `[0, 5]`. -/
def exC1bfile : HNode := obsFile [("c", catGroup ["x", "y"] [0, 5])]

/-- The catalog `DataReader::new` builds over `exC1bfile`. -/
def exC1breader : DataReader :=
  ⟨["c"], .grp [] [("c", catGroup ["x", "y"] [0, 5])], 2, ["categorical"],
    [some (["x", "y"], [0, 5])]⟩

/-- Witness for the amended C1 at a concrete catalog and range. -/
theorem C1_amended_witness :
    DataReader.new exC1bfile "obs" = .ok exC1breader ∧
      rIsOk (exC1breader.read_chunk 0 2) = false :=
  ⟨rfl,
    C1_amended_out_of_range_code_aborts exC1breader 0 0 2 "c" ["x", "y"] [0, 5]
      rfl rfl (by decide) (by decide) rfl⟩

/-- `fieldOKb` at the `"string-array"` tag, unfolded. -/
theorem fieldOKb_strTag (r : DataReader) (i : Nat) (nm : String) :
    fieldOKb r i nm "string-array" =
      match r.group.dataset nm with
      | .ok d =>
        match d.data with
        | .strs xs => decide (r.total_rows ≤ xs.length)
        | _ => false
      | .error _ => false := rfl

/-- `fieldOKb` at the `"categorical"` tag, unfolded. -/
theorem fieldOKb_catTag (r : DataReader) (i : Nat) (nm : String) :
    fieldOKb r i nm "categorical" =
      match r.categorical_data.get? i with
      | some (some (_, codes)) => decide (r.total_rows ≤ codes.length)
      | _ => false := rfl

/-- `fieldOKb` at the `"array"` tag, unfolded. -/
theorem fieldOKb_arrTag (r : DataReader) (i : Nat) (nm : String) :
    fieldOKb r i nm "array" =
      match r.group.dataset nm with
      | .ok d =>
        match d.data with
        | .i64s xs => decide (r.total_rows ≤ xs.length)
        | _ => false
      | .error _ => false := rfl

/-- An empty slice at the right edge. -/
theorem sliceList_self {α : Type} (l : List α) (k : Nat) :
    sliceList l k k = [] := by
  simp [sliceList]

/-- With every field well-backed, decoding the empty range
`[total_rows, total_rows)` succeeds with one empty column per field. -/
theorem readFieldsLoop_at_end (r : DataReader) :
    ∀ (L : List (String × String)) (i : Nat),
      allFieldsOKb r i L = true →
      readFieldsLoop r r.total_rows r.total_rows i L =
        .ok (List.replicate L.length []) := by
  intro L
  induction L with
  | nil => intro i _; rfl
  | cons p rest ih =>
    intro i h
    obtain ⟨nm, et⟩ := p
    unfold allFieldsOKb at h
    rw [Bool.and_eq_true] at h
    obtain ⟨h1, h2⟩ := h
    have hdec : decodeField r i nm et r.total_rows r.total_rows = .ok [] := by
      by_cases hA : et = "string-array"
      · subst hA
        rw [fieldOKb_strTag] at h1
        cases hds : r.group.dataset nm with
        | ok d =>
          simp only [hds] at h1
          cases hdd : d.data with
          | strs xs =>
            simp only [hdd] at h1
            rw [decodeField_strTag]
            simp only [hds]
            unfold HDataset.readSlice1dStrs
            simp only [hdd]
            rw [if_pos (And.intro (Nat.le_refl _) (of_decide_eq_true h1))]
            rw [sliceList_self]
          | i64s xs => simp only [hdd] at h1; cases h1
          | u32s xs => simp only [hdd] at h1; cases h1
        | error e => simp only [hds] at h1; cases h1
      · by_cases hB : et = "categorical"
        · subst hB
          rw [fieldOKb_catTag] at h1
          cases hcd : r.categorical_data.get? i with
          | none => simp only [hcd] at h1; cases h1
          | some o =>
            cases o with
            | none => simp only [hcd] at h1; cases h1
            | some pr =>
              obtain ⟨cats, codes⟩ := pr
              simp only [hcd] at h1
              rw [decodeField_catTag]
              simp only [hcd]
              rw [if_pos (And.intro (Nat.le_refl _) (of_decide_eq_true h1))]
              rw [sliceList_self]
              simp
        · by_cases hC : et = "array"
          · subst hC
            rw [fieldOKb_arrTag] at h1
            cases hds : r.group.dataset nm with
            | ok d =>
              simp only [hds] at h1
              cases hdd : d.data with
              | i64s xs =>
                simp only [hdd] at h1
                rw [decodeField_arrTag]
                simp only [hds]
                unfold HDataset.readSlice1dI64
                simp only [hdd]
                rw [if_pos (And.intro (Nat.le_refl _) (of_decide_eq_true h1))]
                rw [sliceList_self]
                rfl
              | strs xs => simp only [hdd] at h1; cases h1
              | u32s xs => simp only [hdd] at h1; cases h1
            | error e => simp only [hds] at h1; cases h1
          · unfold fieldOKb at h1
            rw [if_neg hA, if_neg hB, if_neg hC] at h1
            cases h1
    show readFieldsLoop r r.total_rows r.total_rows i ((nm, et) :: rest) = _
    unfold readFieldsLoop
    simp only [hdec, ih (i + 1) h2, List.length_cons, List.replicate_succ]

/-- C3 (amended): with every field well-backed, `read_chunk` at
`start = rowCount` (the boundary chunk) returns one zero-length column per
field and is not an error; for `start > rowCount`, however, the read can
abort (see the C3 counterexample), so the original claim holds only at the
boundary itself. -/
theorem C3_amended_boundary_chunk (r : DataReader) (count : Nat)
    (hOK : allFieldsOKb r 0 (r.headers.zip r.encoding_types) = true) :
    r.read_chunk r.total_rows count =
      .ok (List.replicate (r.headers.zip r.encoding_types).length []) := by
  show readFieldsLoop r r.total_rows (min (r.total_rows + count) r.total_rows) 0
    (r.headers.zip r.encoding_types) = _
  have hmin : min (r.total_rows + count) r.total_rows = r.total_rows := by omega
  rw [hmin]
  exact readFieldsLoop_at_end r (r.headers.zip r.encoding_types) 0 hOK

/-- C3 witness container: a 2-row string-array table. -/
def exC3bfile : HNode := obsFile [("s", strDs "string-array" ["u", "v"])]

/-- The catalog `DataReader::new` builds over `exC3bfile`. -/
def exC3breader : DataReader :=
  ⟨["s"], .grp [] [("s", strDs "string-array" ["u", "v"])], 2,
    ["string-array"], [none]⟩

/-- Witness for the amended C3: the boundary chunk at `start = rowCount = 2`
returns a zero-length column, not an error. -/
theorem C3_amended_witness :
    DataReader.new exC3bfile "obs" = .ok exC3breader ∧
      exC3breader.read_chunk 2 10 = .ok [[]] :=
  ⟨rfl, C3_amended_boundary_chunk exC3breader 10 rfl⟩

/-- Adjacent slices concatenate. -/
theorem sliceList_append {α : Type} (l : List α) (s m e : Nat)
    (h1 : s ≤ m) (h2 : m ≤ e) :
    sliceList l s m ++ sliceList l m e = sliceList l s e := by
  unfold sliceList
  have he : e - s = (m - s) + (e - m) := by omega
  rw [he, List.take_add]
  have hd : (l.drop s).drop (m - s) = l.drop m := by
    rw [List.drop_drop]
    congr 1
    omega
  rw [hd]

/-- Characterization of a successful string slice read. -/
theorem readSlice1dStrs_ok (d : HDataset) (s e : Nat) (xs : List String)
    (h : d.readSlice1dStrs s e = .ok xs) :
    ∃ ys, d.data = .strs ys ∧ s ≤ e ∧ e ≤ ys.length ∧ xs = sliceList ys s e := by
  unfold HDataset.readSlice1dStrs at h
  split at h
  · rename_i ys hys
    split at h
    · rename_i hb
      injection h with h
      exact ⟨ys, hys, hb.1, hb.2, h.symm⟩
    · cases h
  · cases h

/-- Evaluation of an in-bounds string slice read. -/
theorem readSlice1dStrs_eval (d : HDataset) (s e : Nat) (ys : List String)
    (hd : d.data = .strs ys) (h1 : s ≤ e) (h2 : e ≤ ys.length) :
    d.readSlice1dStrs s e = .ok (sliceList ys s e) := by
  unfold HDataset.readSlice1dStrs
  simp only [hd]
  rw [if_pos (And.intro h1 h2)]

/-- Characterization of a successful `i64` slice read. -/
theorem readSlice1dI64_ok (d : HDataset) (s e : Nat) (xs : List Int)
    (h : d.readSlice1dI64 s e = .ok xs) :
    ∃ ys, d.data = .i64s ys ∧ s ≤ e ∧ e ≤ ys.length ∧ xs = sliceList ys s e := by
  unfold HDataset.readSlice1dI64 at h
  split at h
  · rename_i ys hys
    split at h
    · rename_i hb
      injection h with h
      exact ⟨ys, hys, hb.1, hb.2, h.symm⟩
    · cases h
  · cases h

/-- Evaluation of an in-bounds `i64` slice read. -/
theorem readSlice1dI64_eval (d : HDataset) (s e : Nat) (ys : List Int)
    (hd : d.data = .i64s ys) (h1 : s ≤ e) (h2 : e ≤ ys.length) :
    d.readSlice1dI64 s e = .ok (sliceList ys s e) := by
  unfold HDataset.readSlice1dI64
  simp only [hd]
  rw [if_pos (And.intro h1 h2)]

/-- Successful decodes of adjacent ranges concatenate to a successful decode
of the union range, for every encoding. -/
theorem decodeField_append (r : DataReader) (i : Nat) (nm et : String)
    (s m e : Nat) (a b : List String)
    (h1 : decodeField r i nm et s m = .ok a)
    (h2 : decodeField r i nm et m e = .ok b) :
    decodeField r i nm et s e = .ok (a ++ b) := by
  by_cases hA : et = "string-array"
  · subst hA
    rw [decodeField_strTag] at h1 h2 ⊢
    cases hds : r.group.dataset nm with
    | error er => simp only [hds] at h1; cases h1
    | ok d =>
      simp only [hds] at h1 h2 ⊢
      obtain ⟨ys, hyd, hs1, he1, hx1⟩ := readSlice1dStrs_ok d s m a h1
      obtain ⟨ys2, hyd2, hs2, he2, hx2⟩ := readSlice1dStrs_ok d m e b h2
      rw [hyd] at hyd2
      injection hyd2 with hyd2
      subst hyd2
      rw [readSlice1dStrs_eval d s e ys hyd (Nat.le_trans hs1 hs2) he2]
      rw [hx1, hx2, sliceList_append ys s m e hs1 hs2]
  · by_cases hB : et = "categorical"
    · subst hB
      rw [decodeField_catTag] at h1 h2 ⊢
      cases hcd : r.categorical_data.get? i with
      | none => simp only [hcd] at h1; cases h1
      | some o =>
        cases o with
        | none => simp only [hcd] at h1; cases h1
        | some pr =>
          obtain ⟨cats, codes⟩ := pr
          simp only [hcd] at h1 h2 ⊢
          split at h1
          · rename_i hb1
            split at h1
            · rename_i hall1
              split at h2
              · rename_i hb2
                split at h2
                · rename_i hall2
                  injection h1 with h1
                  injection h2 with h2
                  rw [if_pos (And.intro (Nat.le_trans hb1.1 hb2.1) hb2.2)]
                  have hsl := sliceList_append codes s m e hb1.1 hb2.1
                  rw [← hsl, List.all_append, hall1, hall2]
                  simp [← h1, ← h2]
                · cases h2
              · cases h2
            · cases h1
          · cases h1
    · by_cases hC : et = "array"
      · subst hC
        rw [decodeField_arrTag] at h1 h2 ⊢
        cases hds : r.group.dataset nm with
        | error er => simp only [hds] at h1; cases h1
        | ok d =>
          simp only [hds] at h1 h2 ⊢
          split at h1
          · rename_i xs1 hx1
            split at h2
            · rename_i xs2 hx2
              injection h1 with h1
              injection h2 with h2
              obtain ⟨ys, hyd, hs1, he1, hsl1⟩ := readSlice1dI64_ok d s m xs1 hx1
              obtain ⟨ys2, hyd2, hs2, he2, hsl2⟩ := readSlice1dI64_ok d m e xs2 hx2
              rw [hyd] at hyd2
              injection hyd2 with hyd2
              subst hyd2
              rw [readSlice1dI64_eval d s e ys hyd (Nat.le_trans hs1 hs2) he2]
              rw [← h1, ← h2, hsl1, hsl2, ← List.map_append,
                sliceList_append ys s m e hs1 hs2]
            · cases h2
          · cases h1
      · rw [decodeField_otherTag r i nm et s m hA hB hC] at h1
        cases h1

/-- Successful field loops over adjacent ranges concatenate per field. -/
theorem readFieldsLoop_append (r : DataReader) (s m e : Nat) :
    ∀ (L : List (String × String)) (i : Nat) (a b : List (List String)),
      readFieldsLoop r s m i L = .ok a →
      readFieldsLoop r m e i L = .ok b →
      readFieldsLoop r s e i L = .ok (concatCols a b) := by
  intro L
  induction L with
  | nil =>
    intro i a b h1 h2
    unfold readFieldsLoop at h1 h2 ⊢
    injection h1 with h1
    injection h2 with h2
    subst h1; subst h2
    rfl
  | cons p rest ih =>
    intro i a b h1 h2
    obtain ⟨nm, et⟩ := p
    unfold readFieldsLoop at h1 h2 ⊢
    split at h1
    · cases h1
    · rename_i col1 hc1
      split at h1
      · cases h1
      · rename_i cols1 hcs1
        injection h1 with h1
        subst h1
        split at h2
        · cases h2
        · rename_i col2 hc2
          split at h2
          · cases h2
          · rename_i cols2 hcs2
            injection h2 with h2
            subst h2
            simp only [decodeField_append r i nm et s m e col1 col2 hc1 hc2,
              ih (i + 1) cols1 cols2 hcs1 hcs2]
            rfl

/-- Once `start` reaches `total_rows`, the chunked iteration stops with one
empty column per field. -/
theorem readChunks_past_end (r : DataReader) (count : Nat) :
    ∀ (fuel start : Nat), r.total_rows ≤ start →
      readChunks r count start fuel = .ok (emptyCols r) := by
  intro fuel
  cases fuel with
  | zero => intro start _; rfl
  | succ f =>
    intro start h
    unfold readChunks
    rw [if_neg (by omega)]

/-- Concatenating one empty column per field on the right is the identity. -/
theorem concatCols_empty : ∀ (c : List (List String)),
    concatCols c (List.replicate c.length []) = c := by
  intro c
  induction c with
  | nil => rfl
  | cons x xs ih =>
    unfold concatCols at ih ⊢
    simp only [List.length_cons, List.replicate_succ, List.zipWith_cons_cons,
      List.append_nil]
    rw [ih]

/-- The chunked iteration, when every issued chunk read succeeds and the fuel
covers the table, produces exactly the decode of `[start, total_rows)`. -/
theorem readChunks_reads_all (r : DataReader) (count : Nat)
    (hcount : 0 < count) :
    ∀ (fuel start : Nat) (out : List (List String)),
      start < r.total_rows →
      r.total_rows ≤ start + count * fuel →
      readChunks r count start fuel = .ok out →
      readFieldsLoop r start r.total_rows 0 (r.headers.zip r.encoding_types) =
        .ok out := by
  intro fuel
  induction fuel with
  | zero =>
    intro start out hlt hfu _
    rw [Nat.mul_zero] at hfu
    exfalso
    omega
  | succ f ih =>
    intro start out hlt hfu h
    rw [Nat.mul_succ] at hfu
    unfold readChunks at h
    rw [if_pos hlt] at h
    split at h
    · cases h
    · rename_i c hc
      split at h
      · cases h
      · rename_i rest hrest
        injection h with h
        subst h
        by_cases hend : start + count < r.total_rows
        · have hc' : readFieldsLoop r start (start + count) 0
              (r.headers.zip r.encoding_types) = .ok c := by
            have hm : min (start + count) r.total_rows = start + count := by
              omega
            rw [← hm]
            exact hc
          have hrest' := ih (start + count) rest hend (by omega) hrest
          exact readFieldsLoop_append r start (start + count) r.total_rows
            (r.headers.zip r.encoding_types) 0 c rest hc' hrest'
        · have hc' : readFieldsLoop r start r.total_rows 0
              (r.headers.zip r.encoding_types) = .ok c := by
            have hm : min (start + count) r.total_rows = r.total_rows := by
              omega
            rw [← hm]
            exact hc
          have hrest' : rest = emptyCols r := by
            have hpe := readChunks_past_end r count f (start + count) (by omega)
            rw [hpe] at hrest
            injection hrest with h'
            exact h'.symm
          subst hrest'
          rw [hc']
          have hlen : c.length = (r.headers.zip r.encoding_types).length :=
            (readFieldsLoop_ok r start r.total_rows
              (r.headers.zip r.encoding_types) 0 c hc').1
          unfold emptyCols zipL
          rw [← hlen, concatCols_empty]

/-- C5 (amended): for a table with `R > 0` rows and chunk size `count > 0`,
if the chunked iteration (`start = 0, count, 2*count, …` until
`start >= R`) succeeds, then its per-field concatenation is exactly the
output of the whole-table read `read_chunk 0 R` — which in particular also
succeeds. (`fuel` bounds the iteration; `R ≤ count * fuel` makes it cover
the table, e.g. `fuel = R`.) -/
theorem C5_amended_chunk_concatenation (r : DataReader) (count fuel : Nat)
    (out : List (List String)) (hcount : 0 < count) (hR : 0 < r.total_rows)
    (hfuel : r.total_rows ≤ count * fuel)
    (h : readChunks r count 0 fuel = .ok out) :
    r.read_chunk 0 r.total_rows = .ok out := by
  have h' := readChunks_reads_all r count hcount fuel 0 out hR (by omega) h
  show readFieldsLoop r 0 (min (0 + r.total_rows) r.total_rows) 0
    (r.headers.zip r.encoding_types) = .ok out
  have hm : min (0 + r.total_rows) r.total_rows = r.total_rows := by omega
  rw [hm]
  exact h'

/-- C5 witness container: 3 rows, a string-array and a categorical field. -/
def exC5bfile : HNode :=
  obsFile [("s", strDs "string-array" ["a", "b", "c"]),
           ("c", catGroup ["p", "q"] [0, 1, 0])]

/-- The catalog `DataReader::new` builds over `exC5bfile`. -/
def exC5breader : DataReader :=
  ⟨["s", "c"],
   .grp [] [("s", strDs "string-array" ["a", "b", "c"]),
            ("c", catGroup ["p", "q"] [0, 1, 0])],
   3, ["string-array", "categorical"], [none, some (["p", "q"], [0, 1, 0])]⟩

/-- Witness for the amended C5: chunk size 2 over 3 rows, two chunks,
concatenation equals the whole-table read. -/
theorem C5_amended_witness :
    DataReader.new exC5bfile "obs" = .ok exC5breader ∧
      readChunks exC5breader 2 0 2 = .ok [["a", "b", "c"], ["p", "q", "p"]] ∧
      exC5breader.read_chunk 0 3 = .ok [["a", "b", "c"], ["p", "q", "p"]] :=
  ⟨rfl, rfl,
    C5_amended_chunk_concatenation exC5breader 2 2
      [["a", "b", "c"], ["p", "q", "p"]] (by decide) (by decide) (by decide) rfl⟩

/-- A predicate holding on each element of a list holds on each element of
any slice of it. -/
theorem sliceList_all {α : Type} (l : List α) (p : α → Bool) (s e : Nat)
    (h : l.all p = true) : (sliceList l s e).all p = true := by
  rw [List.all_eq_true] at h ⊢
  intro x hx
  exact h x (List.mem_of_mem_drop (List.mem_of_mem_take hx))

/-- C6: for a categorical field whose codes all lie within the bounds of its
categories table (`codes` covering all rows), the decode of
`[start, min (start+n) rowCount)` succeeds and equals the code-by-code
category lookup `categories[codes[j]]`, and a successful `read_chunk` carries
exactly that sequence as the field's column. -/
theorem C6_categorical_roundtrip (r : DataReader) (i start n : Nat)
    (nm : String) (cats : List String) (codes : List Nat)
    (cols : List (List String))
    (hz : (r.headers.zip r.encoding_types).get? i = some (nm, "categorical"))
    (hc : r.categorical_data.get? i = some (some (cats, codes)))
    (hlen : codes.length = r.total_rows)
    (hb : codes.all (fun c => decide (c < cats.length)) = true)
    (hs : start ≤ r.total_rows)
    (hok : r.read_chunk start n = .ok cols) :
    decodeField r i nm "categorical" start (min (start + n) r.total_rows) =
      .ok ((sliceList codes start (min (start + n) r.total_rows)).map
        (fun c => cats.getD c "")) ∧
    cols.get? i =
      some ((sliceList codes start (min (start + n) r.total_rows)).map
        (fun c => cats.getD c "")) := by
  have hse : start ≤ min (start + n) r.total_rows := by omega
  have hec : min (start + n) r.total_rows ≤ codes.length := by omega
  have hall := sliceList_all codes (fun c => decide (c < cats.length))
    start (min (start + n) r.total_rows) hb
  have hfirst : decodeField r i nm "categorical" start
      (min (start + n) r.total_rows) =
      .ok ((sliceList codes start (min (start + n) r.total_rows)).map
        (fun c => cats.getD c "")) := by
    rw [decodeField_catTag]
    simp only [hc]
    rw [if_pos (And.intro hse hec), hall]
    simp
  refine ⟨hfirst, ?_⟩
  have h' : readFieldsLoop r start (min (start + n) r.total_rows) 0
      (r.headers.zip r.encoding_types) = .ok cols := hok
  obtain ⟨_, hpt⟩ :=
    readFieldsLoop_ok r start (min (start + n) r.total_rows)
      (r.headers.zip r.encoding_types) 0 cols h'
  obtain ⟨col, hcg, hdec⟩ := hpt i nm "categorical" hz
  rw [Nat.zero_add, hfirst] at hdec
  injection hdec with hdec
  rw [hcg, hdec]

/-- C6 witness container: the spec's example, categories `["a","b","c"]` and
codes `[2,0,1,0]`. -/
def exC6file : HNode := obsFile [("c", catGroup ["a", "b", "c"] [2, 0, 1, 0])]

/-- The catalog `DataReader::new` builds over `exC6file`. -/
def exC6reader : DataReader :=
  ⟨["c"], .grp [] [("c", catGroup ["a", "b", "c"] [2, 0, 1, 0])], 4,
    ["categorical"], [some (["a", "b", "c"], [2, 0, 1, 0])]⟩

/-- Witness for C6: reading rows `0..4` of the spec's example returns
`["c","a","b","a"]`. -/
theorem C6_witness :
    DataReader.new exC6file "obs" = .ok exC6reader ∧
      exC6reader.read_chunk 0 4 = .ok [["c", "a", "b", "a"]] ∧
      decodeField exC6reader 0 "c" "categorical" 0
          (min (0 + 4) exC6reader.total_rows) = .ok ["c", "a", "b", "a"] :=
  ⟨rfl, rfl,
    (C6_categorical_roundtrip exC6reader 0 0 4 "c" ["a", "b", "c"]
      [2, 0, 1, 0] [["c", "a", "b", "a"]] rfl rfl rfl rfl (by decide) rfl).1⟩


/-- At a non-first field (`i ≠ 0`) the probe leaves the running row count
unchanged. -/
theorem probeField_pos (g : HNode) (i : Nat) (nm : String) (tr tr' : Nat)
    (et : String) (hi : ¬ i = 0)
    (h : probeField g i nm tr = .ok (tr', et)) : tr' = tr := by
  unfold probeField at h
  split at h
  · split at h
    · rename_i et0 hat
      injection h with h
      injection h with h1 h2
      rw [if_neg hi] at h1
      exact h1.symm
    · cases h
  · split at h
    · split at h
      · rename_i tr2 htr2
        split at h
        · rename_i et0 hat
          injection h with h
          injection h with h1 h2
          rw [if_neg hi] at htr2
          injection htr2 with htr2
          rw [← h1]
          exact htr2.symm
        · cases h
      · cases h
    · cases h

/-- At the first field (`i = 0`) a successful probe records exactly the
`firstFieldLen` of the field. -/
theorem probeField_zero_rows (g : HNode) (nm : String) (tr tr' : Nat)
    (et : String) (h : probeField g 0 nm tr = .ok (tr', et)) :
    firstFieldLen g nm = .ok tr' := by
  unfold probeField at h
  unfold firstFieldLen
  split at h
  · split at h
    · rename_i et0 hat
      injection h with h
      injection h with h1 h2
      rw [if_pos rfl] at h1
      rw [h1]
    · cases h
  · split at h
    · rename_i sub hsub
      split at h
      · rename_i tr2 htr2
        split at h
        · rename_i et0 hat
          injection h with h
          injection h with h1 h2
          rw [if_pos rfl] at htr2
          cases hcd : sub.dataset "codes" with
          | ok c =>
            rw [hcd] at htr2
            simp only [Except.map] at htr2
            injection htr2 with htr2
            simp only [hcd]
            rw [htr2, h1]
          | error e2 =>
            rw [hcd] at htr2
            simp only [Except.map] at htr2
            cases htr2
        · cases h
      · cases h
    · cases h

/-- A successful probe reads exactly the raw `encoding-type` tag of the
field (dataset-first, sub-group fallback). -/
theorem probeField_et (g : HNode) (i : Nat) (nm : String) (tr tr' : Nat)
    (et : String) (h : probeField g i nm tr = .ok (tr', et)) :
    probeEncodingType g nm = .ok et := by
  unfold probeField at h
  unfold probeEncodingType
  split at h
  · split at h
    · rename_i et0 hat
      injection h with h
      injection h with h1 h2
      rw [hat, h2]
    · cases h
  · split at h
    · split at h
      · rename_i tr2 htr2
        split at h
        · rename_i et0 hat
          injection h with h
          injection h with h1 h2
          rw [hat, h2]
        · cases h
      · cases h
    · cases h

/-- After the first field, the `new` loop never changes the row count. -/
theorem newLoop_tr_const (g : HNode) :
    ∀ (L : List String) (i tr trF : Nat) (ets : List String)
      (cs : List (Option (List String × List Nat))),
      newLoop g (i + 1) L tr = .ok (trF, ets, cs) → trF = tr := by
  intro L
  induction L with
  | nil =>
    intro i tr trF ets cs h
    unfold newLoop at h
    injection h with h
    injection h with h1 h2
    exact h1.symm
  | cons nm rest ih =>
    intro i tr trF ets cs h
    unfold newLoop at h
    split at h
    · cases h
    · rename_i tr' et hpe
      split at h
      · cases h
      · rename_i cat hcat
        split at h
        · cases h
        · rename_i trF2 ets2 cs2 hrec
          injection h with h
          injection h with h1 h2
          rw [← h1]
          rw [probeField_pos g (i + 1) nm tr tr' et (Nat.succ_ne_zero i) hpe]
            at hrec
          exact ih (i + 1) tr trF2 ets2 cs2 hrec

/-- C7: for every catalog built by `DataReader::new`, the recorded row count
is exactly `firstFieldLen` of the first listed field — `shape()[0]` of its
leaf dataset, or of the sub-group's `codes` dataset when the field only
opens as a sub-group — and the lengths of all later fields never affect it
(an empty field list records 0). -/
theorem C7_rowcount_from_first_field (f : HNode) (gn : String)
    (r : DataReader) (g : HNode) (nm : String) (rest : List String)
    (hn : DataReader.new f gn = .ok r)
    (hg : f.getGroup gn = .ok g) :
    (r.headers = [] → r.total_rows = 0) ∧
    (r.headers = nm :: rest → firstFieldLen g nm = .ok r.total_rows) := by
  unfold DataReader.new at hn
  simp only [hg] at hn
  split at hn
  · cases hn
  · rename_i headers hmem
    split at hn
    · cases hn
    · rename_i tr ets cs hloop
      injection hn with hn
      subst hn
      constructor
      · intro hh
        replace hh : headers = [] := hh
        subst hh
        unfold newLoop at hloop
        injection hloop with hloop
        injection hloop with h1 h2
        exact h1.symm
      · intro hh
        replace hh : headers = nm :: rest := hh
        subst hh
        unfold newLoop at hloop
        split at hloop
        · cases hloop
        · rename_i tr' et hpe
          split at hloop
          · cases hloop
          · rename_i cat hcat
            split at hloop
            · cases hloop
            · rename_i trF2 ets2 cs2 hrec
              injection hloop with hloop
              injection hloop with h1 h2
              have hconst := newLoop_tr_const g rest 0 tr' trF2 ets2 cs2 hrec
              rw [hconst] at h1
              show firstFieldLen g nm = .ok tr
              rw [probeField_zero_rows g nm 0 tr' et hpe, h1]

/-- C7 witness container: a 3-row first field and a deliberately shorter
second field (whose length must not affect the row count). -/
def exC7file : HNode :=
  obsFile [("a", strDs "string-array" ["x", "y", "z"]), ("b", intDs [1])]

/-- The `obs` group of `exC7file`. -/
def exC7grp : HNode :=
  .grp [] [("a", strDs "string-array" ["x", "y", "z"]), ("b", intDs [1])]

/-- The catalog `DataReader::new` builds over `exC7file`: row count 3, from
the first field only. -/
def exC7reader : DataReader :=
  ⟨["a", "b"], exC7grp, 3, ["string-array", "array"], [none, none]⟩

/-- Witness for C7 at a concrete catalog. -/
theorem C7_witness :
    DataReader.new exC7file "obs" = .ok exC7reader ∧
      firstFieldLen exC7grp "a" = .ok exC7reader.total_rows :=
  ⟨rfl,
    (C7_rowcount_from_first_field exC7file "obs" exC7reader exC7grp "a" ["b"]
      rfl rfl).2 rfl⟩

/-- The `new` loop records one encoding tag and one categorical-data slot
per field; the slot is `some` exactly for `"categorical"` tags, and every
recorded tag is the field's raw probed `encoding-type`. -/
theorem newLoop_fields (g : HNode) :
    ∀ (L : List String) (i tr trF : Nat) (ets : List String)
      (cs : List (Option (List String × List Nat))),
      newLoop g i L tr = .ok (trF, ets, cs) →
      ets.length = L.length ∧ cs.length = L.length ∧
      (∀ j, (cs.get? j).map Option.isSome =
        (ets.get? j).map (fun et => decide (et = "categorical"))) ∧
      (∀ j nm, L.get? j = some nm →
        ∃ et, ets.get? j = some et ∧ probeEncodingType g nm = .ok et) := by
  intro L
  induction L with
  | nil =>
    intro i tr trF ets cs h
    unfold newLoop at h
    injection h with h
    injection h with h1 h2
    injection h2 with h2 h3
    subst h2
    subst h3
    refine ⟨rfl, rfl, fun j => rfl, ?_⟩
    intro j nm hj
    simp at hj
  | cons nm0 rest ih =>
    intro i tr trF ets cs h
    unfold newLoop at h
    split at h
    · cases h
    · rename_i tr' et hpe
      split at h
      · cases h
      · rename_i cat hcat
        split at h
        · cases h
        · rename_i trF2 ets2 cs2 hrec
          injection h with h
          injection h with h1 h2
          injection h2 with h2 h3
          subst h2
          subst h3
          obtain ⟨ihl1, ihl2, ihmap, ihprobe⟩ := ih (i + 1) tr' trF2 ets2 cs2 hrec
          refine ⟨by simp [ihl1], by simp [ihl2], ?_, ?_⟩
          · intro j
            cases j with
            | zero =>
              simp only [List.get?_cons_zero, Option.map_some']
              congr 1
              by_cases hcet : et = "categorical"
              · rw [if_pos hcet] at hcat
                cases hl : loadCategorical g nm0 with
                | ok p =>
                  rw [hl] at hcat
                  simp only [Except.map] at hcat
                  injection hcat with hcat
                  rw [← hcat]
                  simp [hcet]
                | error e2 =>
                  rw [hl] at hcat
                  simp only [Except.map] at hcat
                  cases hcat
              · rw [if_neg hcet] at hcat
                injection hcat with hcat
                rw [← hcat]
                simp [hcet]
            | succ j' => simpa using ihmap j'
          · intro j nm hj
            cases j with
            | zero =>
              simp only [List.get?_cons_zero, Option.some.injEq] at hj
              subst hj
              exact ⟨et, by simp, probeField_et g i _ tr tr' et hpe⟩
            | succ j' =>
              simp only [List.get?_cons_succ] at hj ⊢
              exact ihprobe j' nm hj

/-- `group.dataset` only fails with container-level errors. -/
theorem dataset_err (n : HNode) (nm : String) (er : RErr)
    (h : n.dataset nm = .error er) : ∃ m, er = .containerErr m := by
  cases n with
  | ds d =>
    simp only [HNode.dataset] at h
    injection h with h
    exact ⟨_, h.symm⟩
  | grp a ch =>
    simp only [HNode.dataset] at h
    split at h
    · cases h
    · injection h with h
      exact ⟨_, h.symm⟩
    · injection h with h
      exact ⟨_, h.symm⟩

/-- `read_slice_1d::<VarLenUnicode,_>` only fails with container errors. -/
theorem readSlice1dStrs_err (d : HDataset) (s e : Nat) (er : RErr)
    (h : d.readSlice1dStrs s e = .error er) : ∃ m, er = .containerErr m := by
  unfold HDataset.readSlice1dStrs at h
  split at h
  · split at h
    · cases h
    · injection h with h
      exact ⟨_, h.symm⟩
  · injection h with h
    exact ⟨_, h.symm⟩

/-- `read_slice_1d::<i64,_>` only fails with container errors. -/
theorem readSlice1dI64_err (d : HDataset) (s e : Nat) (er : RErr)
    (h : d.readSlice1dI64 s e = .error er) : ∃ m, er = .containerErr m := by
  unfold HDataset.readSlice1dI64 at h
  split at h
  · split at h
    · cases h
    · injection h with h
      exact ⟨_, h.symm⟩
  · injection h with h
    exact ⟨_, h.symm⟩

/-- If the categorical slot for field `i` is populated whenever the field's
tag is `"categorical"`, a per-field decode never produces the
`"Categorical data not found"` error. -/
theorem decodeField_not_catErr (r : DataReader) (i : Nat) (nm et : String)
    (s e : Nat)
    (hcat : et = "categorical" →
      (r.categorical_data.get? i).map Option.isSome = some true) :
    isCatNotFoundErr (decodeField r i nm et s e) = false := by
  by_cases hA : et = "string-array"
  · subst hA
    cases hds : r.group.dataset nm with
    | ok d =>
      cases hsl : d.readSlice1dStrs s e with
      | ok xs =>
        rw [decodeField_strTag]
        simp only [hds, hsl]
        rfl
      | error er =>
        obtain ⟨m, hm⟩ := readSlice1dStrs_err d s e er hsl
        subst hm
        rw [decodeField_strTag]
        simp only [hds, hsl]
        rfl
    | error er =>
      obtain ⟨m, hm⟩ := dataset_err r.group nm er hds
      subst hm
      rw [decodeField_strTag]
      simp only [hds]
      rfl
  · by_cases hB : et = "categorical"
    · subst hB
      have hm := hcat rfl
      cases hcd : r.categorical_data.get? i with
      | none =>
        rw [hcd] at hm
        cases hm
      | some o =>
        cases o with
        | none =>
          rw [hcd] at hm
          simp at hm
        | some pr =>
          obtain ⟨cats, codes⟩ := pr
          rw [decodeField_catTag]
          simp only [hcd]
          by_cases hb : s ≤ e ∧ e ≤ codes.length
          · rw [if_pos hb]
            by_cases hall : (sliceList codes s e).all
                (fun c => decide (c < cats.length)) = true
            · rw [hall]
              rfl
            · rw [Bool.not_eq_true] at hall
              rw [hall]
              rfl
          · rw [if_neg hb]
            rfl
    · by_cases hC : et = "array"
      · subst hC
        cases hds : r.group.dataset nm with
        | ok d =>
          cases hsl : d.readSlice1dI64 s e with
          | ok xs =>
            rw [decodeField_arrTag]
            simp only [hds, hsl]
            rfl
          | error er =>
            obtain ⟨m, hm⟩ := readSlice1dI64_err d s e er hsl
            subst hm
            rw [decodeField_arrTag]
            simp only [hds, hsl]
            rfl
        | error er =>
          obtain ⟨m, hm⟩ := dataset_err r.group nm er hds
          subst hm
          rw [decodeField_arrTag]
          simp only [hds]
          rfl
      · rw [decodeField_otherTag r i nm et s e hA hB hC]
        rfl

/-- `isCatNotFoundErr` on an error value does not depend on the value type. -/
theorem isCatNotFoundErr_error (a b : Type) (er : RErr) :
    isCatNotFoundErr (.error er : RResult a) =
      isCatNotFoundErr (.error er : RResult b) := by
  cases er <;> rfl

/-- With populated categorical slots for all categorical fields, the read
loop never produces the `"Categorical data not found"` error. -/
theorem readFieldsLoop_not_catErr (r : DataReader) (s e : Nat) :
    ∀ (L : List (String × String)) (i : Nat),
      (∀ j nm, L.get? j = some (nm, "categorical") →
        (r.categorical_data.get? (i + j)).map Option.isSome = some true) →
      isCatNotFoundErr (readFieldsLoop r s e i L) = false := by
  intro L
  induction L with
  | nil => intro i _; rfl
  | cons p rest ih =>
    intro i hinv
    obtain ⟨nm, et⟩ := p
    have hcat0 : et = "categorical" →
        (r.categorical_data.get? i).map Option.isSome = some true := by
      intro hcet
      have hz := hinv 0 nm (by rw [List.get?_cons_zero, hcet])
      simpa using hz
    unfold readFieldsLoop
    cases hd : decodeField r i nm et s e with
    | error er =>
      have h0 := decodeField_not_catErr r i nm et s e hcat0
      rw [hd] at h0
      simp only [hd]
      exact (isCatNotFoundErr_error (List (List String)) (List String) er).trans h0
    | ok col =>
      simp only [hd]
      cases hrest : readFieldsLoop r s e (i + 1) rest with
      | error er =>
        have h1 := ih (i + 1) (fun j nm' hj => by
          have h2 := hinv (j + 1) nm' (by simpa using hj)
          have h3 : i + (j + 1) = i + 1 + j := by omega
          rw [h3] at h2
          exact h2)
        rw [hrest] at h1
        simp only [hrest]
        exact h1
      | ok cols =>
        simp only [hrest]
        rfl

/-- C9: for every catalog built by `DataReader::new`, the `headers`,
`encoding_types` and `categorical_data` vectors have equal length; at every
index the categorical slot is populated exactly when the recorded tag is
`"categorical"`; and consequently no `read_chunk` on such a catalog can ever
return the `"Categorical data not found"` error — that branch is
unreachable. -/
theorem C9_new_invariant (f : HNode) (gn : String) (r : DataReader)
    (j s c : Nat) (hn : DataReader.new f gn = .ok r) :
    r.headers.length = r.encoding_types.length ∧
    r.encoding_types.length = r.categorical_data.length ∧
    (r.categorical_data.get? j).map Option.isSome =
      (r.encoding_types.get? j).map (fun et => decide (et = "categorical")) ∧
    isCatNotFoundErr (r.read_chunk s c) = false := by
  unfold DataReader.new at hn
  split at hn
  · cases hn
  · rename_i g hg
    split at hn
    · cases hn
    · rename_i headers hmem
      split at hn
      · cases hn
      · rename_i tr ets cs hloop
        injection hn with hn
        subst hn
        obtain ⟨l1, l2, hmap, _⟩ := newLoop_fields g headers 0 0 tr ets cs hloop
        refine ⟨l1.symm, by rw [l1, l2], hmap j, ?_⟩
        exact readFieldsLoop_not_catErr ⟨headers, g, tr, ets, cs⟩ s
          (min (s + c) tr) (headers.zip ets) 0 (fun j' nm hj => by
            obtain ⟨hh, he⟩ := (zip_get?_iff headers ets j' nm "categorical").mp hj
            have hm := hmap j'
            rw [he] at hm
            simpa using hm)

/-- C9 witness container: a string-array field and a categorical field. -/
def exC9file : HNode :=
  obsFile [("s", strDs "string-array" ["a"]), ("c", catGroup ["p"] [0])]

/-- The catalog `DataReader::new` builds over `exC9file`. -/
def exC9reader : DataReader :=
  ⟨["s", "c"],
   .grp [] [("s", strDs "string-array" ["a"]), ("c", catGroup ["p"] [0])],
   1, ["string-array", "categorical"], [none, some (["p"], [0])]⟩

/-- Witness for C9 at a concrete catalog, index 1 (the categorical field). -/
theorem C9_witness :
    DataReader.new exC9file "obs" = .ok exC9reader ∧
      exC9reader.headers.length = exC9reader.encoding_types.length ∧
      (exC9reader.categorical_data.get? 1).map Option.isSome =
        (exC9reader.encoding_types.get? 1).map
          (fun et => decide (et = "categorical")) ∧
      isCatNotFoundErr (exC9reader.read_chunk 0 1) = false :=
  ⟨rfl,
    (C9_new_invariant exC9file "obs" exC9reader 1 0 1 rfl).1,
    (C9_new_invariant exC9file "obs" exC9reader 1 0 1 rfl).2.2.1,
    (C9_new_invariant exC9file "obs" exC9reader 1 0 1 rfl).2.2.2⟩

/-- C2: an unrecognized encoding tag does not fail catalog construction —
`DataReader::new` retains the raw tag in `encoding_types` — but every
subsequent `read_chunk` covering the field fails (lazy failure), the field's
decode being exactly the `UnsupportedEncoding` error naming the offending
tag. -/
theorem C2_unsupported_encoding_is_lazy (f g : HNode) (gn : String)
    (r : DataReader) (i : Nat) (nm t : String) (s c e : Nat)
    (hn : DataReader.new f gn = .ok r)
    (hg : f.getGroup gn = .ok g)
    (hh : r.headers.get? i = some nm)
    (ht : probeEncodingType g nm = .ok t)
    (h1 : t ≠ "string-array") (h2 : t ≠ "categorical") (h3 : t ≠ "array") :
    r.encoding_types.get? i = some t ∧
    decodeField r i nm t s e = .error (.unsupportedEncoding t) ∧
    rIsOk (r.read_chunk s c) = false := by
  unfold DataReader.new at hn
  simp only [hg] at hn
  split at hn
  · cases hn
  · rename_i headers hmem
    split at hn
    · cases hn
    · rename_i tr ets cs hloop
      injection hn with hn
      subst hn
      obtain ⟨l1, l2, hmap, hprobe⟩ :=
        newLoop_fields g headers 0 0 tr ets cs hloop
      replace hh : headers.get? i = some nm := hh
      obtain ⟨et, hets, hpet⟩ := hprobe i nm hh
      rw [ht] at hpet
      injection hpet with hpet
      subst hpet
      refine ⟨hets, decodeField_otherTag _ i nm t s e h1 h2 h3, ?_⟩
      cases hrc : DataReader.read_chunk ⟨headers, g, tr, ets, cs⟩ s c with
      | error er => rfl
      | ok cols =>
        exfalso
        have h' : readFieldsLoop ⟨headers, g, tr, ets, cs⟩ s
            (min (s + c) tr) 0 (headers.zip ets) = .ok cols := hrc
        obtain ⟨_, hpt⟩ := readFieldsLoop_ok ⟨headers, g, tr, ets, cs⟩ s
          (min (s + c) tr) (headers.zip ets) 0 cols h'
        have hz := (zip_get?_iff headers ets i nm t).mpr ⟨hh, hets⟩
        obtain ⟨col, _, hd⟩ := hpt i nm t hz
        rw [Nat.zero_add,
          decodeField_otherTag _ i nm t s (min (s + c) tr) h1 h2 h3] at hd
        cases hd

/-- C2 witness container: a field tagged `"mystery-type"`. -/
def exC2file : HNode := obsFile [("m", strDs "mystery-type" ["a", "b"])]

/-- The `obs` group of `exC2file`. -/
def exC2grp : HNode := .grp [] [("m", strDs "mystery-type" ["a", "b"])]

/-- The catalog `DataReader::new` builds over `exC2file`: construction
succeeds, the mystery tag retained. -/
def exC2reader : DataReader :=
  ⟨["m"], exC2grp, 2, ["mystery-type"], [none]⟩

/-- Witness for C2 at a concrete catalog: construction succeeds, the tag is
retained, the decode names the tag, the read fails. -/
theorem C2_witness :
    DataReader.new exC2file "obs" = .ok exC2reader ∧
      exC2reader.encoding_types.get? 0 = some "mystery-type" ∧
      decodeField exC2reader 0 "m" "mystery-type" 0 2 =
        .error (.unsupportedEncoding "mystery-type") ∧
      rIsOk (exC2reader.read_chunk 0 5) = false :=
  ⟨rfl,
    (C2_unsupported_encoding_is_lazy exC2file exC2grp "obs" exC2reader 0 "m"
      "mystery-type" 0 5 2 rfl rfl rfl rfl (by decide) (by decide)
      (by decide)).1,
    (C2_unsupported_encoding_is_lazy exC2file exC2grp "obs" exC2reader 0 "m"
      "mystery-type" 0 5 2 rfl rfl rfl rfl (by decide) (by decide)
      (by decide)).2.1,
    (C2_unsupported_encoding_is_lazy exC2file exC2grp "obs" exC2reader 0 "m"
      "mystery-type" 0 5 2 rfl rfl rfl rfl (by decide) (by decide)
      (by decide)).2.2⟩

/-- `group.group` only fails with container-level errors. -/
theorem getGroup_err (n : HNode) (nm : String) (er : RErr)
    (h : n.getGroup nm = .error er) : ∃ m, er = .containerErr m := by
  cases n with
  | ds d =>
    simp only [HNode.getGroup] at h
    injection h with h
    exact ⟨_, h.symm⟩
  | grp a ch =>
    simp only [HNode.getGroup] at h
    split at h
    · cases h
    · injection h with h
      exact ⟨_, h.symm⟩
    · injection h with h
      exact ⟨_, h.symm⟩

/-- `dataset.attr` only fails with container-level errors. -/
theorem attr_err (d : HDataset) (key : String) (er : RErr)
    (h : d.attr key = .error er) : ∃ m, er = .containerErr m := by
  unfold HDataset.attr at h
  split at h
  · cases h
  · injection h with h
    exact ⟨_, h.symm⟩

/-- `node.attrStr` only fails with container-level errors. -/
theorem attrStr_err (n : HNode) (key : String) (er : RErr)
    (h : n.attrStr key = .error er) : ∃ m, er = .containerErr m := by
  cases n with
  | ds d =>
    simp only [HNode.attrStr] at h
    split at h
    · cases h
    · injection h with h
      exact ⟨_, h.symm⟩
  | grp a ch =>
    simp only [HNode.attrStr] at h
    split at h
    · cases h
    · injection h with h
      exact ⟨_, h.symm⟩

/-- `read_1d::<VarLenUnicode>` only fails with container-level errors. -/
theorem read1dStrs_err (d : HDataset) (er : RErr)
    (h : d.read1dStrs = .error er) : ∃ m, er = .containerErr m := by
  unfold HDataset.read1dStrs at h
  split at h
  · cases h
  · injection h with h
    exact ⟨_, h.symm⟩

/-- `read_1d::<u32>` only fails with container-level errors. -/
theorem read1dU32_err (d : HDataset) (er : RErr)
    (h : d.read1dU32 = .error er) : ∃ m, er = .containerErr m := by
  unfold HDataset.read1dU32 at h
  split at h
  · cases h
  · injection h with h
    exact ⟨_, h.symm⟩

/-- `read_1d::<i64>` only fails with container-level errors. -/
theorem read1dI64_err (d : HDataset) (er : RErr)
    (h : d.read1dI64 = .error er) : ∃ m, er = .containerErr m := by
  unfold HDataset.read1dI64 at h
  split at h
  · cases h
  · injection h with h
    exact ⟨_, h.symm⟩

/-- `loadCategorical` only fails with container-level errors. -/
theorem loadCategorical_err (g : HNode) (nm : String) (er : RErr)
    (h : loadCategorical g nm = .error er) : ∃ m, er = .containerErr m := by
  unfold loadCategorical at h
  split at h
  · split at h
    · split at h
      · split at h
        · split at h
          · cases h
          · rename_i e2 he2
            injection h with h
            subst h
            exact read1dU32_err _ _ he2
        · rename_i e2 he2
          injection h with h
          subst h
          exact dataset_err _ _ _ he2
      · rename_i e2 he2
        injection h with h
        subst h
        exact read1dStrs_err _ _ he2
    · rename_i e2 he2
      injection h with h
      subst h
      exact dataset_err _ _ _ he2
  · rename_i e2 he2
    injection h with h
    subst h
    exact getGroup_err _ _ _ he2

/-- `probeEncodingType` only fails with container-level errors. -/
theorem probeEncodingType_err (g : HNode) (nm : String) (er : RErr)
    (h : probeEncodingType g nm = .error er) : ∃ m, er = .containerErr m := by
  unfold probeEncodingType at h
  split at h
  · exact attr_err _ _ _ h
  · split at h
    · exact attrStr_err _ _ _ h
    · rename_i e2 he2
      injection h with h
      subst h
      exact getGroup_err _ _ _ he2

/-- A per-field export decode never fails with the `all_data` indexing
panic of the write loop. -/
theorem exportDecode_err (g : HNode) (nm et : String) (er : RErr)
    (h : exportDecode g nm et = .error er) : allDataPanicErr er = false := by
  unfold exportDecode at h
  split at h
  · split at h
    · obtain ⟨m, hm⟩ := read1dStrs_err _ _ h
      subst hm
      rfl
    · rename_i e2 he2
      injection h with h
      subst h
      obtain ⟨m, hm⟩ := dataset_err _ _ _ he2
      subst hm
      rfl
  · split at h
    · split at h
      · rename_i p hl hall
        split at h
        · cases h
        · injection h with h
          subst h
          rfl
      · rename_i e2 he2
        injection h with h
        subst h
        obtain ⟨m, hm⟩ := loadCategorical_err _ _ _ he2
        subst hm
        rfl
    · split at h
      · split at h
        · split at h
          · cases h
          · rename_i e2 he2
            injection h with h
            subst h
            obtain ⟨m, hm⟩ := read1dI64_err _ _ he2
            subst hm
            rfl
        · rename_i e2 he2
          injection h with h
          subst h
          obtain ⟨m, hm⟩ := dataset_err _ _ _ he2
          subst hm
          rfl
      · injection h with h
        subst h
        rfl

/-- The `all_data` collection loop never fails with the `all_data` indexing
panic of the write loop. -/
theorem exportLoop_err (g : HNode) :
    ∀ (names : List String) (er : RErr),
      exportLoop g names = .error er → allDataPanicErr er = false := by
  intro names
  induction names with
  | nil => intro er h; cases h
  | cons nm rest ih =>
    intro er h
    unfold exportLoop at h
    split at h
    · rename_i e2 he2
      injection h with h
      subst h
      obtain ⟨m, hm⟩ := probeEncodingType_err _ _ _ he2
      subst hm
      rfl
    · rename_i et hpe
      split at h
      · rename_i e2 he2
        injection h with h
        subst h
        exact exportDecode_err g nm et e2 he2
      · rename_i data hdata
        split at h
        · rename_i e2 he2
          injection h with h
          subst h
          exact ih e2 he2
        · cases h

/-- The export loop produces one whole column per member. -/
theorem exportLoop_length (g : HNode) :
    ∀ (names : List String) (allData : List (List String)),
      exportLoop g names = .ok allData → allData.length = names.length := by
  intro names
  induction names with
  | nil =>
    intro allData h
    injection h with h
    subst h
    rfl
  | cons nm rest ih =>
    intro allData h
    unfold exportLoop at h
    split at h
    · cases h
    · split at h
      · cases h
      · rename_i data hdata
        split at h
        · cases h
        · rename_i ds hds
          injection h with h
          subst h
          simp [ih ds hds]

/-- A failing row transposition is exactly the column indexing panic. -/
theorem buildRow_err (idx : Nat) :
    ∀ (allData : List (List String)) (er : RErr),
      buildRow allData idx = .error er →
      er = .panicked "index out of bounds: column" := by
  intro allData
  induction allData with
  | nil => intro er h; cases h
  | cons col rest ih =>
    intro er h
    unfold buildRow at h
    split at h
    · split at h
      · cases h
      · rename_i e2 he2
        injection h with h
        subst h
        exact ih e2 he2
    · injection h with h
      exact h.symm

/-- The CSV write loop never aborts with the `all_data` indexing panic. -/
theorem rowsLoop_no_allDataPanic (allData : List (List String)) :
    ∀ (k idx : Nat) (w : List (List String)),
      isAllDataPanic (rowsLoop allData k idx w).2 = false := by
  intro k
  induction k with
  | zero => intro idx w; rfl
  | succ k' ih =>
    intro idx w
    unfold rowsLoop
    cases hbr : buildRow allData idx with
    | ok row =>
      simp only [hbr]
      exact ih (idx + 1) (w ++ [row])
    | error e =>
      simp only [hbr]
      rw [buildRow_err idx allData e hbr]
      rfl

/-- C10: on a file whose `obs` group has zero members, `export_obs_to_csv`
writes the (empty) header record and then aborts with the Rust
index-out-of-bounds panic at `all_data[0]` — it does not return a value and
raises no structured error; with at least one member that indexing is always
in bounds, so that particular panic can never occur. -/
theorem C10_export_empty_obs_panics (f g : HNode) (m : String)
    (ms : List String) (hg : f.getGroup "obs" = .ok g) :
    (g.memberNames = .ok [] →
      export_obs_to_csv f =
        ([[]], some (.panicked "index out of bounds: all_data"))) ∧
    (g.memberNames = .ok (m :: ms) →
      isAllDataPanic (export_obs_to_csv f).2 = false) := by
  constructor
  · intro hm
    unfold export_obs_to_csv
    simp only [hg, hm]
    rfl
  · intro hm
    unfold export_obs_to_csv
    simp only [hg, hm]
    cases hel : exportLoop g (m :: ms) with
    | error e =>
      simp only [hel]
      exact exportLoop_err g (m :: ms) e hel
    | ok allData =>
      simp only [hel]
      have hlen := exportLoop_length g (m :: ms) allData hel
      cases allData with
      | nil => simp at hlen
      | cons c0 rest =>
        exact rowsLoop_no_allDataPanic (c0 :: rest) c0.length 0 [m :: ms]

/-- C10 witness container: a file whose `obs` group is empty. -/
def exC10file : HNode := .grp [] [("obs", .grp [] [])]

/-- Witness for C10: on the empty `obs` group the export writes the empty
header record and aborts with the `all_data[0]` panic. -/
theorem C10_witness :
    export_obs_to_csv exC10file =
      ([[]], some (.panicked "index out of bounds: all_data")) :=
  (C10_export_empty_obs_panics exC10file (.grp [] []) "" [] rfl).1 rfl
